import Mathlib


/-!
# werf host cleanup: the orchestration of `cmd/werf/host/cleanup/cleanup.go`

A shallow embedding of `runGC` and of the `RunE` handler built by `NewCmd`.

* The packages `werf`, `lock`, `true_git`, `docker_registry`, `docker`,
  `cleaning`, `logger` and `common` are called by the file but are not part
  of it.  Their functions are fields of `Collaborators`: arbitrary functions
  of their arguments and of the host state, so a theorem quantified over
  `Collaborators σ` (for every state type `σ`) holds for every behaviour they
  can have.
* The package-level variable `CommonCmdData` is a component of the state
  (`World.CommonCmdData`); `runGC` reads it at the point where the Go code
  dereferences it.
* `World.trace` records, in order, every call `runGC` makes to one of its six
  steps, with the arguments passed and the error returned.
* What the collaborators themselves return, called one after the other on the
  host, is stated by `SucceedAll`, `FirstError`, `Replay` and `hostAfter`,
  which do not mention `runGC`; the theorems relate `runGC` to them.
-/

namespace Cleanup

/-! ## Go errors -/

/-- An `error` value, by what the program can observe of it:

* `msg`, the text its `Error()` method gives;
* `verbS`, how package `fmt` writes it for the verb `%s` when that is not
  the text of `Error()`: `some f` for a value whose type implements
  `fmt.Formatter` and whose `Format` method writes `f` (`fmt` calls `Format`
  before it looks for an `Error` method), and likewise for a value whose
  `Error` method panics under `fmt`, which recovers and writes a text `f` of its
  own; `none` for a value that `fmt` writes by calling `Error()`;
* for a `wrapping` error, the cause its `Unwrap()` method gives (`plain`
  errors unwrap to nil). -/
inductive GoError where
  | plain (msg : String) (verbS : Option String)
  | wrapping (msg : String) (verbS : Option String) (cause : GoError)
  deriving DecidableEq, Repr

/-- Text of `err.Error()`. -/
def GoError.Error : GoError → String
  | .plain msg _ => msg
  | .wrapping msg _ _ => msg

/-- What `fmt` writes for the error under `%s` when it does not call
`Error()` (the output of its `Format` method), `none` when it does. -/
def GoError.verbS : GoError → Option String
  | .plain _ f => f
  | .wrapping _ f _ => f

/-- The text `fmt` writes for the operand `err` under the verb `%s`
(`handleMethods` in package `fmt`): the output of `Format` if `err` is a
`fmt.Formatter`, otherwise the text of `err.Error()`. -/
def GoError.verbText (err : GoError) : String :=
  match err.verbS with
  | some f => f
  | none => err.Error

/-- The causes reachable from an error by repeated `errors.Unwrap`. -/
def GoError.chain : GoError → List GoError
  | .plain _ _ => []
  | .wrapping _ _ cause => cause :: cause.chain

/-- `fmt.Errorf(lead + "%s", err)`: the text is `lead` followed by `err` as
written for the verb `%s`; without a `%w` verb the result is the value of
`errors.New` on that text, which has no `Unwrap` and no `Format` method. -/
def fmt_Errorf (lead : String) (err : GoError) : GoError :=
  .plain (lead ++ err.verbText) none

/-! ## Configuration and option types -/

/-- The fields of `common.CmdData` this command sets up in `NewCmd` (lines
52-59).  In Go each field is a pointer allocated by its `common.Setup...`
call and filled by flag parsing; the embedding stores the value pointed to. -/
structure CmdData where
  TmpDir : String
  HomeDir : String
  DockerConfig : String
  InsecureRepo : Bool
  DryRun : Bool
  deriving DecidableEq, Repr

/-- An `io.Writer` as returned by `logger.GetOutStream` / `GetErrStream`. -/
structure Writer where
  handle : Nat
  deriving DecidableEq, Repr

/-- The literal `true_git.Options{Out: ..., Err: ...}`. -/
structure TrueGitOptions where
  Out : Writer
  Err : Writer
  deriving DecidableEq, Repr

/-- The literal `docker_registry.Options{AllowInsecureRepo: ...}`. -/
structure DockerRegistryOptions where
  AllowInsecureRepo : Bool
  deriving DecidableEq, Repr

/-- The literal `cleaning.CommonOptions{DryRun: ...}`. -/
structure CommonOptions where
  DryRun : Bool
  deriving DecidableEq, Repr

/-! ## Calls and the trace -/

/-- The six steps of `runGC`, in source order. -/
inductive Step where
  | werfInit
  | lockInit
  | trueGitInit
  | dockerRegistryInit
  | dockerInit
  | hostCleanup
  deriving DecidableEq, Repr

/-- A call to one of the six steps together with the arguments passed. -/
inductive Call where
  | werfInit (tmpDir homeDir : String)
  | lockInit
  | trueGitInit (opts : TrueGitOptions)
  | dockerRegistryInit (opts : DockerRegistryOptions)
  | dockerInit (dockerConfig : String)
  | hostCleanup (opts : CommonOptions)
  deriving DecidableEq, Repr

/-- Which step a call belongs to. -/
def Call.step : Call → Step
  | .werfInit _ _ => .werfInit
  | .lockInit => .lockInit
  | .trueGitInit _ => .trueGitInit
  | .dockerRegistryInit _ => .dockerRegistryInit
  | .dockerInit _ => .dockerInit
  | .hostCleanup _ => .hostCleanup

/-- One entry of the trace: the call made and the error it returned
(`none` stands for `nil`). -/
structure Event where
  call : Call
  result : Option GoError
  deriving DecidableEq, Repr

/-- The event of a call that returned nil. -/
def Event.ok (c : Call) : Event :=
  { call := c, result := none }

/-- The event of a call that returned the error `e`. -/
def Event.failed (c : Call) (e : GoError) : Event :=
  { call := c, result := some e }

/-- The fixed order of the steps in the body of `runGC`. -/
def stepOrder : List Step :=
  [.werfInit, .lockInit, .trueGitInit, .dockerRegistryInit, .dockerInit, .hostCleanup]

/-! ## Collaborators and state -/

/-- The functions of other packages that `cleanup.go` calls.  Each takes the
arguments the Go function takes plus the host state `σ` (filesystem,
container engine, caches, output streams, ...) and gives back its result and
the new host state.  `logger.GetOutStream` and `logger.GetErrStream` are the
accessors of the current streams of the logger: they read the host state.
`cmd.Help` (whose result the handler drops), `fmt.Println` and
`common.LogVersion` only act on the host; `common_LogRunningTime_report` is
the output written by `common.LogRunningTime`. -/
structure Collaborators (σ : Type) where
  werf_Init : String → String → σ → Option GoError × σ
  lock_Init : σ → Option GoError × σ
  true_git_Init : TrueGitOptions → σ → Option GoError × σ
  docker_registry_Init : DockerRegistryOptions → σ → Option GoError × σ
  docker_Init : String → σ → Option GoError × σ
  cleaning_HostCleanup : CommonOptions → σ → Option GoError × σ
  logger_GetOutStream : σ → Writer
  logger_GetErrStream : σ → Writer
  common_ApplyLogOptions : CmdData → σ → Option GoError × CmdData × σ
  common_LogVersion : σ → σ
  common_LogRunningTime_report : σ → σ
  cmd_Help : σ → σ
  fmt_Println : σ → σ

/-- State of a run: the package variable `CommonCmdData`, the host, and the
calls made so far. -/
structure World (σ : Type) where
  CommonCmdData : CmdData
  host : σ
  trace : List Event

/-- The state at the start of a run: nothing called yet. -/
def World.start {σ : Type} (cfg : CmdData) (s : σ) : World σ :=
  { CommonCmdData := cfg, host := s, trace := [] }

/-- The collaborator function a call denotes, applied to the arguments of the call. -/
def Collaborators.perform {σ : Type} (env : Collaborators σ) : Call → σ → Option GoError × σ
  | .werfInit tmpDir homeDir => env.werf_Init tmpDir homeDir
  | .lockInit => env.lock_Init
  | .trueGitInit opts => env.true_git_Init opts
  | .dockerRegistryInit opts => env.docker_registry_Init opts
  | .dockerInit dockerConfig => env.docker_Init dockerConfig
  | .hostCleanup opts => env.cleaning_HostCleanup opts

/-- Make the call `c` on the current host state: the host becomes what the
collaborator leaves, and the call and its returned error are appended to the
trace. -/
def invoke {σ : Type} (env : Collaborators σ) (c : Call) (w : World σ) :
    Option GoError × World σ :=
  let r := env.perform c w.host
  (r.1, { w with host := r.2, trace := w.trace ++ [{ call := c, result := r.1 }] })

/-! ## The function `runGC` (cleanup.go, lines 64-91) -/

/-- The function `runGC`. -/
def runGC {σ : Type} (env : Collaborators σ) (w : World σ) : Option GoError × World σ :=
  match invoke env (.werfInit w.CommonCmdData.TmpDir w.CommonCmdData.HomeDir) w with
  | (some err, w) => (some (fmt_Errorf "initialization error: " err), w)
  | (none, w) =>
  match invoke env .lockInit w with
  | (some err, w) => (some err, w)
  | (none, w) =>
  match invoke env (.trueGitInit { Out := env.logger_GetOutStream w.host,
                                   Err := env.logger_GetErrStream w.host }) w with
  | (some err, w) => (some err, w)
  | (none, w) =>
  match invoke env (.dockerRegistryInit { AllowInsecureRepo := w.CommonCmdData.InsecureRepo }) w with
  | (some err, w) => (some err, w)
  | (none, w) =>
  match invoke env (.dockerInit w.CommonCmdData.DockerConfig) w with
  | (some err, w) => (some err, w)
  | (none, w) =>
  let commonOptions : CommonOptions := { DryRun := w.CommonCmdData.DryRun }
  match invoke env (.hostCleanup commonOptions) w with
  | (some err, w) => (some err, w)
  | (none, w) => (none, w)

/-- The calls made by a run of `runGC` started under configuration `cfg` on
host state `s`, in order. -/
def runTrace {σ : Type} (env : Collaborators σ) (cfg : CmdData) (s : σ) : List Event :=
  (runGC env (World.start cfg s)).2.trace

/-- The error returned by that run (`none` is nil). -/
def runResult {σ : Type} (env : Collaborators σ) (cfg : CmdData) (s : σ) : Option GoError :=
  (runGC env (World.start cfg s)).1

/-- The host state that run leaves. -/
def runHost {σ : Type} (env : Collaborators σ) (cfg : CmdData) (s : σ) : σ :=
  (runGC env (World.start cfg s)).2.host

/-! ## The `RunE` handler of `NewCmd` (cleanup.go, lines 38-49) -/

/-- Modelled from the spec: `common.LogRunningTime` is not in this file.  The
spec counts logging and reporting among the thin I/O wrappers around the
orchestration, so it is the wrapper that runs the function it is given once,
reports the running time on the output of the host
(`common_LogRunningTime_report`), and returns the error of that function. -/
def common_LogRunningTime {σ : Type} (env : Collaborators σ)
    (f : World σ → Option GoError × World σ) (w : World σ) : Option GoError × World σ :=
  let r := f w
  (r.1, { r.2 with host := env.common_LogRunningTime_report r.2.host })

/-- The closure assigned to `RunE`.  `common.ApplyLogOptions` receives
`&CommonCmdData`, so it may change the configuration as well as the host. -/
def RunE {σ : Type} (env : Collaborators σ) (w : World σ) : Option GoError × World σ :=
  match env.common_ApplyLogOptions w.CommonCmdData w.host with
  | (some err, cfg, s) =>
    let w : World σ := { w with CommonCmdData := cfg, host := s }
    let w : World σ := { w with host := env.cmd_Help w.host }
    let w : World σ := { w with host := env.fmt_Println w.host }
    (some err, w)
  | (none, cfg, s) =>
    let w : World σ := { w with CommonCmdData := cfg, host := s }
    let w : World σ := { w with host := env.common_LogVersion w.host }
    common_LogRunningTime env (fun w => runGC env w) w

/-! ## What the collaborators return when called in order -/

/-- The option literal of line 73, evaluated on host state `s`. -/
def trueGitOptionsAt {σ : Type} (env : Collaborators σ) (s : σ) : TrueGitOptions :=
  { Out := env.logger_GetOutStream s, Err := env.logger_GetErrStream s }

/-- The call the body of `runGC` makes for step `st` when the host state is `s`
(lines 65, 69, 73, 77, 81 and 85-86). -/
def callOf {σ : Type} (env : Collaborators σ) (cfg : CmdData) : Step → σ → Call
  | .werfInit, _ => .werfInit cfg.TmpDir cfg.HomeDir
  | .lockInit, _ => .lockInit
  | .trueGitInit, s => .trueGitInit (trueGitOptionsAt env s)
  | .dockerRegistryInit, _ => .dockerRegistryInit { AllowInsecureRepo := cfg.InsecureRepo }
  | .dockerInit, _ => .dockerInit cfg.DockerConfig
  | .hostCleanup, _ => .hostCleanup { DryRun := cfg.DryRun }

/-- The steps that come before a step in the fixed order. -/
def Step.before : Step → List Step
  | .werfInit => []
  | .lockInit => [.werfInit]
  | .trueGitInit => [.werfInit, .lockInit]
  | .dockerRegistryInit => [.werfInit, .lockInit, .trueGitInit]
  | .dockerInit => [.werfInit, .lockInit, .trueGitInit, .dockerRegistryInit]
  | .hostCleanup => [.werfInit, .lockInit, .trueGitInit, .dockerRegistryInit, .dockerInit]

/-- `SucceedAll env cfg steps s t`: called one after the other from host state
`s`, the collaborators of `steps` all return nil, and leave host state `t`. -/
def SucceedAll {σ : Type} (env : Collaborators σ) (cfg : CmdData) : List Step → σ → σ → Prop
  | [], s, t => t = s
  | st :: rest, s, t =>
    ∃ s1, env.perform (callOf env cfg st s) s = (none, s1) ∧ SucceedAll env cfg rest s1 t

/-- `FirstError env cfg s st c t`: from host state `s` the collaborators of
the steps before `st` all return nil, and the collaborator of `st`, called on
the state they leave, returns the error `c` and leaves host state `t`. -/
def FirstError {σ : Type} (env : Collaborators σ) (cfg : CmdData) (s : σ) (st : Step)
    (c : GoError) (t : σ) : Prop :=
  ∃ s1, SucceedAll env cfg st.before s s1 ∧ env.perform (callOf env cfg st s1) s1 = (some c, t)

/-- `Replay env cfg s evs t`: the events `evs` are what happens when their
calls are made one after the other from host state `s`: each call is the one
the body of `runGC` makes for its step on the host state reached, its recorded
result is what the collaborator returns there, the next call is made on the
host state the collaborator leaves, and `t` is the host state after the last. -/
def Replay {σ : Type} (env : Collaborators σ) (cfg : CmdData) : σ → List Event → σ → Prop
  | s, [], t => t = s
  | s, ev :: evs, t =>
    ev.call = callOf env cfg ev.call.step s ∧
      ev.result = (env.perform ev.call s).1 ∧
      Replay env cfg (env.perform ev.call s).2 evs t

/-- The host state left when the collaborators of `steps` are called one
after the other from host state `s`, each on the state the one before left,
up to and including the first that returns an error. -/
def hostAfter {σ : Type} (env : Collaborators σ) (cfg : CmdData) : List Step → σ → σ
  | [], s => s
  | st :: rest, s =>
    match env.perform (callOf env cfg st s) s with
    | (some _, s1) => s1
    | (none, s1) => hostAfter env cfg rest s1

/-- The host state the five initializers produce from host state `s`. -/
def initializersHost {σ : Type} (env : Collaborators σ) (cfg : CmdData) (s : σ) : σ :=
  hostAfter env cfg Step.hostCleanup.before s

/-- The events of a trace that are calls to an initializer. -/
def initializerEvents (tr : List Event) : List Event :=
  tr.filter (fun ev => ev.call.step ≠ Step.hostCleanup)

/-! ## Predicates used in the statements -/

/-- The six possible outcomes of `runGC` under configuration `cfg`: the events
`evs` it appends to the trace and the error `ret` it returns.  `t` is the
option literal passed to `true_git.Init`. -/
def RunShape (cfg : CmdData) (evs : List Event) (ret : Option GoError) : Prop :=
  (∃ e, evs = [.failed (.werfInit cfg.TmpDir cfg.HomeDir) e] ∧
      ret = some (fmt_Errorf "initialization error: " e)) ∨
  (∃ e, evs = [.ok (.werfInit cfg.TmpDir cfg.HomeDir), .failed .lockInit e] ∧
      ret = some e) ∨
  (∃ e t, evs = [.ok (.werfInit cfg.TmpDir cfg.HomeDir), .ok .lockInit,
        .failed (.trueGitInit t) e] ∧
      ret = some e) ∨
  (∃ e t, evs = [.ok (.werfInit cfg.TmpDir cfg.HomeDir), .ok .lockInit, .ok (.trueGitInit t),
        .failed (.dockerRegistryInit { AllowInsecureRepo := cfg.InsecureRepo }) e] ∧
      ret = some e) ∨
  (∃ e t, evs = [.ok (.werfInit cfg.TmpDir cfg.HomeDir), .ok .lockInit, .ok (.trueGitInit t),
        .ok (.dockerRegistryInit { AllowInsecureRepo := cfg.InsecureRepo }),
        .failed (.dockerInit cfg.DockerConfig) e] ∧
      ret = some e) ∨
  (∃ t, evs = [.ok (.werfInit cfg.TmpDir cfg.HomeDir), .ok .lockInit, .ok (.trueGitInit t),
        .ok (.dockerRegistryInit { AllowInsecureRepo := cfg.InsecureRepo }),
        .ok (.dockerInit cfg.DockerConfig),
        { call := .hostCleanup { DryRun := cfg.DryRun }, result := ret }])

/-- The outcomes of a run in terms of what the collaborators return: the
error `ret` returned, the events `evs` recorded and the host state `t` left by
`runGC` started under `cfg` on host state `s`. -/
def RunOutcome {σ : Type} (env : Collaborators σ) (cfg : CmdData) (s : σ)
    (ret : Option GoError) (evs : List Event) (t : σ) : Prop :=
  (∃ e s1, env.werf_Init cfg.TmpDir cfg.HomeDir s = (some e, s1) ∧
      ret = some (fmt_Errorf "initialization error: " e) ∧
      evs = [.failed (.werfInit cfg.TmpDir cfg.HomeDir) e] ∧ t = s1) ∨
  (∃ s1 e s2, env.werf_Init cfg.TmpDir cfg.HomeDir s = (none, s1) ∧
      env.lock_Init s1 = (some e, s2) ∧
      ret = some e ∧
      evs = [.ok (.werfInit cfg.TmpDir cfg.HomeDir), .failed .lockInit e] ∧ t = s2) ∨
  (∃ s1 s2 e s3, env.werf_Init cfg.TmpDir cfg.HomeDir s = (none, s1) ∧
      env.lock_Init s1 = (none, s2) ∧
      env.true_git_Init (trueGitOptionsAt env s2) s2 = (some e, s3) ∧
      ret = some e ∧
      evs = [.ok (.werfInit cfg.TmpDir cfg.HomeDir), .ok .lockInit,
        .failed (.trueGitInit (trueGitOptionsAt env s2)) e] ∧ t = s3) ∨
  (∃ s1 s2 s3 e s4, env.werf_Init cfg.TmpDir cfg.HomeDir s = (none, s1) ∧
      env.lock_Init s1 = (none, s2) ∧
      env.true_git_Init (trueGitOptionsAt env s2) s2 = (none, s3) ∧
      env.docker_registry_Init { AllowInsecureRepo := cfg.InsecureRepo } s3 = (some e, s4) ∧
      ret = some e ∧
      evs = [.ok (.werfInit cfg.TmpDir cfg.HomeDir), .ok .lockInit,
        .ok (.trueGitInit (trueGitOptionsAt env s2)),
        .failed (.dockerRegistryInit { AllowInsecureRepo := cfg.InsecureRepo }) e] ∧ t = s4) ∨
  (∃ s1 s2 s3 s4 e s5, env.werf_Init cfg.TmpDir cfg.HomeDir s = (none, s1) ∧
      env.lock_Init s1 = (none, s2) ∧
      env.true_git_Init (trueGitOptionsAt env s2) s2 = (none, s3) ∧
      env.docker_registry_Init { AllowInsecureRepo := cfg.InsecureRepo } s3 = (none, s4) ∧
      env.docker_Init cfg.DockerConfig s4 = (some e, s5) ∧
      ret = some e ∧
      evs = [.ok (.werfInit cfg.TmpDir cfg.HomeDir), .ok .lockInit,
        .ok (.trueGitInit (trueGitOptionsAt env s2)),
        .ok (.dockerRegistryInit { AllowInsecureRepo := cfg.InsecureRepo }),
        .failed (.dockerInit cfg.DockerConfig) e] ∧ t = s5) ∨
  (∃ s1 s2 s3 s4 s5 s6, env.werf_Init cfg.TmpDir cfg.HomeDir s = (none, s1) ∧
      env.lock_Init s1 = (none, s2) ∧
      env.true_git_Init (trueGitOptionsAt env s2) s2 = (none, s3) ∧
      env.docker_registry_Init { AllowInsecureRepo := cfg.InsecureRepo } s3 = (none, s4) ∧
      env.docker_Init cfg.DockerConfig s4 = (none, s5) ∧
      env.cleaning_HostCleanup { DryRun := cfg.DryRun } s5 = (ret, s6) ∧
      evs = [.ok (.werfInit cfg.TmpDir cfg.HomeDir), .ok .lockInit,
        .ok (.trueGitInit (trueGitOptionsAt env s2)),
        .ok (.dockerRegistryInit { AllowInsecureRepo := cfg.InsecureRepo }),
        .ok (.dockerInit cfg.DockerConfig),
        { call := .hostCleanup { DryRun := cfg.DryRun }, result := ret }] ∧ t = s6)

/-- The reading of "annotated form of `c`" in C3: the message of `r` is a
non-empty annotation followed by the message of `c`, and `c` is not reachable
from `r` by unwrapping. -/
def AnnotatedForm (r c : GoError) : Prop :=
  (∃ lead : String, lead ≠ "" ∧ r.Error = lead ++ c.Error) ∧ c ∉ r.chain

/-! ## The cleanup engine and the host of the spec -/

/-- Modelled from the spec: `cleaning.HostCleanup` is not in this file.  By
section 4.4 of the spec it enumerates the stale objects and either reports
them (dry-run) or deletes them (real run), and by section 3 a dry run leaves
the host unchanged.  `delete` is the effect of the deletions of a real run on
the host, `fatal` the error, if any, with which the engine ends. -/
def specHostCleanup {σ : Type} (fatal : CommonOptions → σ → Option GoError) (delete : σ → σ)
    (opts : CommonOptions) (h : σ) : Option GoError × σ :=
  (fatal opts h, if opts.DryRun then h else delete h)

/-- The collaborators `env` with the cleanup engine of the spec. -/
def withSpecCleanup {σ : Type} (env : Collaborators σ)
    (fatal : CommonOptions → σ → Option GoError) (delete : σ → σ) : Collaborators σ :=
  { env with cleaning_HostCleanup := specHostCleanup fatal delete }

/-- The categories of stale objects of the data model of the spec. -/
inductive StaleObjectCategory where
  | orphanedContainer
  | orphanedImage
  | staleTmpDir
  | staleGitCacheEntry
  | staleWorktreeCacheEntry
  deriving DecidableEq, Repr

/-- Modelled from the spec: the host state the spec speaks of, as far as the
orchestration touches it.  The packages that own it are not in this file.  It
holds the directories present on disk, whether the lock directory exists
(section 4.2), and the stale objects the cleanup engine would find. -/
structure SpecHost where
  dirs : List String
  lockDirExists : Bool
  staleObjects : List (StaleObjectCategory × String)
  deriving DecidableEq, Repr

/-- Ensure a directory is present on disk. -/
def SpecHost.ensureDir (h : SpecHost) (d : String) : SpecHost :=
  if d ∈ h.dirs then h else { h with dirs := h.dirs ++ [d] }

/-- A real run of the cleanup engine on the host of the spec removes the stale
objects. -/
def specDelete (h : SpecHost) : SpecHost :=
  { h with staleObjects := [] }

/-- Modelled from the spec: the collaborators, none of which is in this file.
The process-wide initializer establishes the working directories of the tool
(section 2); the `Init` of the lock manager is the one-time setup "ensuring a lock
directory exists" (section 4.2); the runtime clients are initialized without
touching the host; the cleanup engine is `specHostCleanup`.  No step fails. -/
def specEnv : Collaborators SpecHost where
  werf_Init := fun tmpDir homeDir h => (none, (h.ensureDir tmpDir).ensureDir homeDir)
  lock_Init := fun h => (none, { h with lockDirExists := true })
  true_git_Init := fun _ h => (none, h)
  docker_registry_Init := fun _ h => (none, h)
  docker_Init := fun _ h => (none, h)
  cleaning_HostCleanup := specHostCleanup (fun _ _ => none) specDelete
  logger_GetOutStream := fun _ => { handle := 1 }
  logger_GetErrStream := fun _ => { handle := 2 }
  common_ApplyLogOptions := fun cfg h => (none, cfg, h)
  common_LogVersion := fun h => h
  common_LogRunningTime_report := fun h => h
  cmd_Help := fun h => h
  fmt_Println := fun h => h

/-- A host whose working directories exist, on which no werf command has yet
created the lock directory, holding one stale tmp dir. -/
def freshHost : SpecHost :=
  { dirs := ["/tmp/werf", "/home/u/.werf"], lockDirExists := false,
    staleObjects := [(.staleTmpDir, "/tmp/werf/build-1")] }

/-! ## Concrete collaborators used to instantiate the theorems -/

/-- Result of a stubbed step: the error `msg` when the step is the one chosen
to fail, nil otherwise. -/
def stubResult (failAt : Option Step) (st : Step) (msg : String) : Option GoError :=
  if failAt = some st then some (.plain msg none) else none

/-- Stub collaborators over a host state that counts the calls made: every
step returns nil except the step `failAt`, which returns an error. -/
def stubEnv (failAt : Option Step) : Collaborators Nat where
  werf_Init := fun _ _ n => (stubResult failAt .werfInit "cannot create tmp dir", n + 1)
  lock_Init := fun n => (stubResult failAt .lockInit "cannot create locks dir", n + 1)
  true_git_Init := fun _ n => (stubResult failAt .trueGitInit "git not found", n + 1)
  docker_registry_Init := fun _ n =>
    (stubResult failAt .dockerRegistryInit "registry unreachable", n + 1)
  docker_Init := fun _ n => (stubResult failAt .dockerInit "docker daemon not running", n + 1)
  cleaning_HostCleanup := fun _ n =>
    (stubResult failAt .hostCleanup "cannot list containers", n + 1)
  logger_GetOutStream := fun _ => { handle := 1 }
  logger_GetErrStream := fun _ => { handle := 2 }
  common_ApplyLogOptions := fun cfg n => (none, cfg, n)
  common_LogVersion := fun n => n
  common_LogRunningTime_report := fun n => n
  cmd_Help := fun n => n
  fmt_Println := fun n => n

/-- The stub collaborators with a `common.ApplyLogOptions` that rejects the
log options. -/
def badLogEnv : Collaborators Nat :=
  { stubEnv none with
    common_ApplyLogOptions := fun cfg n => (some (.plain "bad log color mode" none), cfg, n) }

/-- The stub collaborators with a `werf.Init` that fails with an error whose
type implements `fmt.Formatter`: its `Error()` text is "mkdir /tmp/werf:
permission denied" and its `Format` method writes "EACCES". -/
def formatterEnv : Collaborators Nat :=
  { stubEnv none with
    werf_Init := fun _ _ n =>
      (some (.plain "mkdir /tmp/werf: permission denied" (some "EACCES")), n + 1) }

/-- A sample resolved configuration, dry-run requested. -/
def sampleConfig : CmdData :=
  { TmpDir := "/tmp/werf", HomeDir := "/home/u/.werf", DockerConfig := "/home/u/.docker",
    InsecureRepo := false, DryRun := true }

/-! ## The outcomes of a run -/

/-- Every run of `runGC` has one of the six shapes, and leaves `CommonCmdData`
as it found it. -/
theorem runGC_shape {σ : Type} (env : Collaborators σ) (w : World σ) :
    ∃ evs : List Event,
      (runGC env w).2.trace = w.trace ++ evs ∧
      (runGC env w).2.CommonCmdData = w.CommonCmdData ∧
      RunShape w.CommonCmdData evs (runGC env w).1 := by
  obtain ⟨cfg, s, tr⟩ := w
  simp only [runGC, invoke, Collaborators.perform]
  rcases h1 : env.werf_Init cfg.TmpDir cfg.HomeDir s with ⟨_ | e1, s1⟩ <;> dsimp only
  swap
  · exact ⟨_, rfl, rfl, Or.inl ⟨e1, rfl, rfl⟩⟩
  rcases h2 : env.lock_Init s1 with ⟨_ | e2, s2⟩ <;> dsimp only
  swap
  · exact ⟨_, by simp [Event.ok, Event.failed], rfl, Or.inr (Or.inl ⟨e2, rfl, rfl⟩)⟩
  rcases h3 : env.true_git_Init
      { Out := env.logger_GetOutStream s2, Err := env.logger_GetErrStream s2 } s2
    with ⟨_ | e3, s3⟩ <;> dsimp only
  swap
  · exact ⟨_, by simp [Event.ok, Event.failed], rfl, Or.inr (Or.inr (Or.inl ⟨e3, { Out := env.logger_GetOutStream s2, Err := env.logger_GetErrStream s2 }, rfl, rfl⟩))⟩
  rcases h4 : env.docker_registry_Init { AllowInsecureRepo := cfg.InsecureRepo } s3
    with ⟨_ | e4, s4⟩ <;> dsimp only
  swap
  · exact ⟨_, by simp [Event.ok, Event.failed], rfl, Or.inr (Or.inr (Or.inr (Or.inl
      ⟨e4, { Out := env.logger_GetOutStream s2, Err := env.logger_GetErrStream s2 }, rfl, rfl⟩)))⟩
  rcases h5 : env.docker_Init cfg.DockerConfig s4 with ⟨_ | e5, s5⟩ <;> dsimp only
  swap
  · exact ⟨_, by simp [Event.ok, Event.failed], rfl, Or.inr (Or.inr (Or.inr (Or.inr (Or.inl
      ⟨e5, { Out := env.logger_GetOutStream s2, Err := env.logger_GetErrStream s2 }, rfl, rfl⟩))))⟩
  rcases h6 : env.cleaning_HostCleanup { DryRun := cfg.DryRun } s5 with ⟨_ | e6, s6⟩ <;>
    dsimp only
  · exact ⟨_, by simp [Event.ok, Event.failed], rfl, Or.inr (Or.inr (Or.inr (Or.inr (Or.inr
      ⟨{ Out := env.logger_GetOutStream s2, Err := env.logger_GetErrStream s2 }, rfl⟩))))⟩
  · exact ⟨_, by simp [Event.ok, Event.failed], rfl, Or.inr (Or.inr (Or.inr (Or.inr (Or.inr
      ⟨{ Out := env.logger_GetOutStream s2, Err := env.logger_GetErrStream s2 }, rfl⟩))))⟩

/-- The shape lemma for a run from the start state. -/
theorem run_shape {σ : Type} (env : Collaborators σ) (cfg : CmdData) (s : σ) :
    RunShape cfg (runTrace env cfg s) (runResult env cfg s) := by
  obtain ⟨evs, htr, -, hshape⟩ := runGC_shape env (World.start cfg s)
  have : runTrace env cfg s = evs := by
    simpa [runTrace, World.start] using htr
  rw [this]
  exact hshape

/-- Every run of `runGC` has one of the six outcomes. -/
theorem run_outcome {σ : Type} (env : Collaborators σ) (cfg : CmdData) (s : σ) :
    RunOutcome env cfg s (runResult env cfg s) (runTrace env cfg s) (runHost env cfg s) := by
  simp only [runResult, runTrace, runHost, runGC, invoke, Collaborators.perform, World.start,
    List.nil_append]
  rcases h1 : env.werf_Init cfg.TmpDir cfg.HomeDir s with ⟨_ | e1, s1⟩ <;> dsimp only
  swap
  · exact Or.inl ⟨e1, s1, h1, rfl, rfl, rfl⟩
  rcases h2 : env.lock_Init s1 with ⟨_ | e2, s2⟩ <;> dsimp only
  swap
  · exact Or.inr (Or.inl ⟨s1, e2, s2, h1, h2, rfl, rfl, rfl⟩)
  rcases h3 : env.true_git_Init (trueGitOptionsAt env s2) s2 with ⟨_ | e3, s3⟩ <;>
    simp only [trueGitOptionsAt] at h3 <;> simp only [h3]
  swap
  · exact Or.inr (Or.inr (Or.inl ⟨s1, s2, e3, s3, h1, h2, h3, rfl, rfl, rfl⟩))
  rcases h4 : env.docker_registry_Init { AllowInsecureRepo := cfg.InsecureRepo } s3
    with ⟨_ | e4, s4⟩ <;> dsimp only
  swap
  · exact Or.inr (Or.inr (Or.inr (Or.inl ⟨s1, s2, s3, e4, s4, h1, h2, h3, h4, rfl, rfl, rfl⟩)))
  rcases h5 : env.docker_Init cfg.DockerConfig s4 with ⟨_ | e5, s5⟩ <;> dsimp only
  swap
  · exact Or.inr (Or.inr (Or.inr (Or.inr (Or.inl
      ⟨s1, s2, s3, s4, e5, s5, h1, h2, h3, h4, h5, rfl, rfl, rfl⟩))))
  rcases h6 : env.cleaning_HostCleanup { DryRun := cfg.DryRun } s5 with ⟨_ | e6, s6⟩ <;>
    dsimp only
  · exact Or.inr (Or.inr (Or.inr (Or.inr (Or.inr
      ⟨s1, s2, s3, s4, s5, s6, h1, h2, h3, h4, h5, h6, rfl, rfl⟩))))
  · exact Or.inr (Or.inr (Or.inr (Or.inr (Or.inr
      ⟨s1, s2, s3, s4, s5, s6, h1, h2, h3, h4, h5, h6, rfl, rfl⟩))))

/-- When step `st` is the first whose collaborator returns an error, `c`,
`runGC` returns `c`, rewritten by `fmt.Errorf` if the step is `werf.Init`, and
leaves the host as that collaborator left it. -/
theorem run_of_firstError {σ : Type} (env : Collaborators σ) (cfg : CmdData) (s : σ)
    (st : Step) (c : GoError) (t : σ) (h : FirstError env cfg s st c t) :
    runResult env cfg s =
        some (if st = Step.werfInit then fmt_Errorf "initialization error: " c else c) ∧
      runHost env cfg s = t := by
  have ho := run_outcome env cfg s
  generalize runTrace env cfg s = tr at ho
  generalize runResult env cfg s = ret at ho ⊢
  generalize runHost env cfg s = t1 at ho ⊢
  rcases ho with ⟨e, s1, h1, rfl, rfl, rfl⟩ | ⟨s1, e, s2, h1, h2, rfl, rfl, rfl⟩ |
    ⟨s1, s2, e, s3, h1, h2, h3, rfl, rfl, rfl⟩ |
    ⟨s1, s2, s3, e, s4, h1, h2, h3, h4, rfl, rfl, rfl⟩ |
    ⟨s1, s2, s3, s4, e, s5, h1, h2, h3, h4, h5, rfl, rfl, rfl⟩ |
    ⟨s1, s2, s3, s4, s5, s6, h1, h2, h3, h4, h5, h6, rfl, rfl⟩ <;>
    cases st <;>
    simp_all [FirstError, SucceedAll, Step.before, callOf, Collaborators.perform]

/-- The host state a run leaves is the one its six collaborators produce,
called in the fixed order up to the first that returns an error. -/
theorem runHost_eq_hostAfter {σ : Type} (env : Collaborators σ) (cfg : CmdData) (s : σ) :
    runHost env cfg s = hostAfter env cfg stepOrder s := by
  have ho := run_outcome env cfg s
  generalize runTrace env cfg s = tr at ho
  generalize runResult env cfg s = ret at ho
  generalize runHost env cfg s = t1 at ho ⊢
  rcases ho with ⟨e, s1, h1, rfl, rfl, rfl⟩ | ⟨s1, e, s2, h1, h2, rfl, rfl, rfl⟩ |
    ⟨s1, s2, e, s3, h1, h2, h3, rfl, rfl, rfl⟩ |
    ⟨s1, s2, s3, e, s4, h1, h2, h3, h4, rfl, rfl, rfl⟩ |
    ⟨s1, s2, s3, s4, e, s5, h1, h2, h3, h4, h5, rfl, rfl, rfl⟩ |
    ⟨s1, s2, s3, s4, s5, s6, h1, h2, h3, h4, h5, h6, rfl, rfl⟩ <;>
    (try cases ret) <;>
    simp_all [hostAfter, stepOrder, callOf, Collaborators.perform]

/-- Every cause in the chain of an error is a strictly smaller term. -/
theorem GoError.sizeOf_lt_of_mem_chain (r : GoError) :
    ∀ c ∈ r.chain, sizeOf c < sizeOf r := by
  induction r with
  | plain msg f => intro c hc; simp [GoError.chain] at hc
  | wrapping msg f cause ih =>
    intro c hc
    simp only [GoError.chain, List.mem_cons] at hc
    rcases hc with rfl | hc
    · simp
    · have := ih c hc
      simp
      omega

/-- No error is among its own causes. -/
theorem GoError.not_mem_chain_self (c : GoError) : c ∉ c.chain :=
  fun h => Nat.lt_irrefl _ (GoError.sizeOf_lt_of_mem_chain c c h)

/-- A string that ends a string of the same length leaves no room in front. -/
theorem lead_eq_empty_of_append (a b : String) (h : b = a ++ b) : a = "" := by
  have h1 := congrArg String.length h
  rw [String.length_append] at h1
  have h2 : a.data.length = 0 := by
    have : a.length = 0 := by omega
    exact this
  apply String.ext
  exact List.length_eq_zero.mp h2

/-! ## Claims about `runGC` -/

/-- C1: if any of the five initializers called in a run returns an error, then
`cleaning.HostCleanup` is not called in that run and `runGC` returns a non-nil
error. -/
theorem runGC_initializer_error_aborts {σ : Type} (env : Collaborators σ) (cfg : CmdData)
    (s : σ)
    (h : ∃ ev ∈ runTrace env cfg s, ev.call.step ≠ Step.hostCleanup ∧ ev.result ≠ none) :
    (∀ ev ∈ runTrace env cfg s, ev.call.step ≠ Step.hostCleanup) ∧
      runResult env cfg s ≠ none := by
  have hs := run_shape env cfg s
  revert h
  generalize runTrace env cfg s = tr at hs ⊢
  generalize runResult env cfg s = ret at hs ⊢
  rcases hs with ⟨e, rfl, rfl⟩ | ⟨e, rfl, rfl⟩ | ⟨e, t, rfl, rfl⟩ | ⟨e, t, rfl, rfl⟩ |
    ⟨e, t, rfl, rfl⟩ | ⟨t, rfl⟩ <;>
    simp [Event.ok, Event.failed, Call.step]

/-- Instance of C1: the registry client fails to initialize. -/
theorem runGC_initializer_error_aborts_witness :
    (∃ ev ∈ runTrace (stubEnv (some .dockerRegistryInit)) sampleConfig 0,
        ev.call.step ≠ Step.hostCleanup ∧ ev.result ≠ none) ∧
      ((∀ ev ∈ runTrace (stubEnv (some .dockerRegistryInit)) sampleConfig 0,
          ev.call.step ≠ Step.hostCleanup) ∧
        runResult (stubEnv (some .dockerRegistryInit)) sampleConfig 0 ≠ none) :=
  ⟨by decide, runGC_initializer_error_aborts _ _ _ (by decide)⟩

/-- C2: the steps called by a run are a non-empty initial segment of the fixed
order `werf.Init, lock.Init, true_git.Init, docker_registry.Init, docker.Init,
cleaning.HostCleanup`; no step is called more than once; the recorded calls
are the calls of the source, made one after the other on the host, and the
recorded results are what the collaborators return (`Replay`); every
collaborator called before the last returned nil, and the last one either
returned an error or is `cleaning.HostCleanup`: the run stops at the first
collaborator that returns an error and nowhere else. -/
theorem runGC_call_sequence {σ : Type} (env : Collaborators σ) (cfg : CmdData) (s : σ) :
    runTrace env cfg s ≠ [] ∧
      (runTrace env cfg s).map (fun ev => ev.call.step) <+: stepOrder ∧
      (∀ st : Step, ((runTrace env cfg s).map (fun ev => ev.call.step)).count st ≤ 1) ∧
      Replay env cfg s (runTrace env cfg s) (runHost env cfg s) ∧
      (∀ ev ∈ (runTrace env cfg s).dropLast, ev.result = none) ∧
      (∀ ev ∈ (runTrace env cfg s).getLast?,
        ev.result ≠ none ∨ ev.call.step = Step.hostCleanup) := by
  have ho := run_outcome env cfg s
  generalize runTrace env cfg s = tr at ho ⊢
  generalize runResult env cfg s = ret at ho
  generalize runHost env cfg s = t1 at ho ⊢
  rcases ho with ⟨e, s1, h1, rfl, rfl, rfl⟩ | ⟨s1, e, s2, h1, h2, rfl, rfl, rfl⟩ |
    ⟨s1, s2, e, s3, h1, h2, h3, rfl, rfl, rfl⟩ |
    ⟨s1, s2, s3, e, s4, h1, h2, h3, h4, rfl, rfl, rfl⟩ |
    ⟨s1, s2, s3, s4, e, s5, h1, h2, h3, h4, h5, rfl, rfl, rfl⟩ |
    ⟨s1, s2, s3, s4, s5, s6, h1, h2, h3, h4, h5, h6, rfl, rfl⟩ <;>
    refine ⟨by simp, ?_, ?_, ?_, by simp [Event.ok, Event.failed, Call.step],
      by simp [Event.ok, Event.failed, Call.step]⟩ <;>
    first
    | (intro st; cases st <;> simp [Event.ok, Event.failed, Call.step])
    | (simp only [Event.ok, Event.failed, Call.step, List.map, stepOrder]; decide)
    | simp_all [Replay, callOf, Collaborators.perform, Event.ok, Event.failed, Call.step]

/-- C3, counterexample: `lock.Init` fails with cause "cannot create locks dir"
after `werf.Init` succeeded; the error `runGC` returns is not an annotated form
of that cause (its message is the message of the cause with nothing in front). -/
theorem runGC_lock_error_not_annotated :
    ∃ ev ∈ runTrace (stubEnv (some .lockInit)) sampleConfig 0, ∃ c, ev.result = some c ∧
      ¬ ∃ r, runResult (stubEnv (some .lockInit)) sampleConfig 0 = some r ∧
        AnnotatedForm r c := by
  refine ⟨Event.failed .lockInit (.plain "cannot create locks dir" none), by decide,
    .plain "cannot create locks dir" none, rfl, ?_⟩
  rintro ⟨r, hr, ⟨lead, hne, hmsg⟩, -⟩
  have hr2 : runResult (stubEnv (some .lockInit)) sampleConfig 0 =
      some (.plain "cannot create locks dir" none) := by decide
  rw [hr2] at hr
  cases hr
  exact hne (lead_eq_empty_of_append lead _ hmsg)

/-- C3, amended: when step `st` is the first whose collaborator returns an
error, `c`, `runGC` returns an error whose message is "initialization error: "
followed by `c` as written for the verb `%s` if the step is `werf.Init` (that
is followed by the message of `c` when `c` has no `Format` method), and
exactly the message of `c` for each of the other five steps; in no case is `c`
reachable from the returned error by unwrapping. -/
theorem runGC_error_message {σ : Type} (env : Collaborators σ) (cfg : CmdData) (s : σ)
    (st : Step) (c : GoError) (t : σ) (h : FirstError env cfg s st c t) :
    ∃ r, runResult env cfg s = some r ∧
      r.Error =
        (if st = Step.werfInit then "initialization error: " ++ c.verbText else c.Error) ∧
      (st = Step.werfInit → c.verbS = none →
        r.Error = "initialization error: " ++ c.Error) ∧
      c ∉ r.chain := by
  have hr := (run_of_firstError env cfg s st c t h).1
  by_cases hst : st = Step.werfInit
  · refine ⟨_, hr, ?_, ?_, ?_⟩
    · simp [hst, fmt_Errorf, GoError.Error]
    · intro _ hf
      simp [hst, fmt_Errorf, GoError.Error, GoError.verbText, hf]
    · simp [hst, fmt_Errorf, GoError.chain]
  · refine ⟨_, hr, ?_, ?_, ?_⟩
    · simp [hst]
    · intro h1
      exact absurd h1 hst
    · simp [hst, GoError.not_mem_chain_self]

/-- Instance of the amended C3: the docker client fails to initialize. -/
theorem runGC_error_message_witness :
    FirstError (stubEnv (some .dockerInit)) sampleConfig 0 .dockerInit
        (.plain "docker daemon not running" none) 5 ∧
      ∃ r, runResult (stubEnv (some .dockerInit)) sampleConfig 0 = some r ∧
        r.Error =
          (if Step.dockerInit = Step.werfInit
            then "initialization error: " ++
              (GoError.plain "docker daemon not running" none).verbText
            else (GoError.plain "docker daemon not running" none).Error) ∧
        (Step.dockerInit = Step.werfInit →
          (GoError.plain "docker daemon not running" none).verbS = none →
          r.Error = "initialization error: " ++
            (GoError.plain "docker daemon not running" none).Error) ∧
        GoError.plain "docker daemon not running" none ∉ r.chain :=
  ⟨⟨4, ⟨1, rfl, 2, rfl, 3, rfl, 4, rfl, rfl⟩, rfl⟩,
    runGC_error_message (stubEnv (some .dockerInit)) sampleConfig 0 .dockerInit
      (.plain "docker daemon not running" none) 5
      ⟨4, ⟨1, rfl, 2, rfl, 3, rfl, 4, rfl, rfl⟩, rfl⟩⟩

/-- C4: `runGC` returns nil exactly when the collaborators of all six steps,
called one after the other in the fixed order, return nil; and exactly when
all six steps were called and every recorded result is nil. -/
theorem runGC_nil_iff_all_nil {σ : Type} (env : Collaborators σ) (cfg : CmdData) (s : σ) :
    (runResult env cfg s = none ↔ ∃ t, SucceedAll env cfg stepOrder s t) ∧
      (runResult env cfg s = none ↔
        ((runTrace env cfg s).map (fun ev => ev.call.step) = stepOrder ∧
          ∀ ev ∈ runTrace env cfg s, ev.result = none)) := by
  have ho := run_outcome env cfg s
  generalize runTrace env cfg s = tr at ho ⊢
  generalize runResult env cfg s = ret at ho ⊢
  generalize runHost env cfg s = t1 at ho
  rcases ho with ⟨e, s1, h1, rfl, rfl, rfl⟩ | ⟨s1, e, s2, h1, h2, rfl, rfl, rfl⟩ |
    ⟨s1, s2, e, s3, h1, h2, h3, rfl, rfl, rfl⟩ |
    ⟨s1, s2, s3, e, s4, h1, h2, h3, h4, rfl, rfl, rfl⟩ |
    ⟨s1, s2, s3, s4, e, s5, h1, h2, h3, h4, h5, rfl, rfl, rfl⟩ |
    ⟨s1, s2, s3, s4, s5, s6, h1, h2, h3, h4, h5, h6, rfl, rfl⟩ <;>
    constructor <;>
    simp_all [SucceedAll, stepOrder, callOf, Collaborators.perform, Event.ok, Event.failed,
      Call.step]

/-- C5: when the collaborators of the five initializers, called one after the
other, all return nil and leave host state `s5`, the run calls
`cleaning.HostCleanup` exactly once, as its last call, with `DryRun` equal to
the dry-run flag of the configuration; what `runGC` returns and the host it
leaves are what `cleaning.HostCleanup` gives for these options on `s5`. -/
theorem runGC_cleanup_called_once {σ : Type} (env : Collaborators σ) (cfg : CmdData)
    (s s5 : σ) (h : SucceedAll env cfg Step.hostCleanup.before s s5) :
    ((runTrace env cfg s).map Event.call).filter (fun c => c.step = Step.hostCleanup) =
        [Call.hostCleanup { DryRun := cfg.DryRun }] ∧
      (runTrace env cfg s).getLast? =
        some { call := Call.hostCleanup { DryRun := cfg.DryRun },
               result := (env.cleaning_HostCleanup { DryRun := cfg.DryRun } s5).1 } ∧
      runResult env cfg s = (env.cleaning_HostCleanup { DryRun := cfg.DryRun } s5).1 ∧
      runHost env cfg s = (env.cleaning_HostCleanup { DryRun := cfg.DryRun } s5).2 := by
  have ho := run_outcome env cfg s
  generalize runTrace env cfg s = tr at ho ⊢
  generalize runResult env cfg s = ret at ho ⊢
  generalize runHost env cfg s = t1 at ho ⊢
  rcases ho with ⟨e, s1, h1, rfl, rfl, rfl⟩ | ⟨s1, e, s2, h1, h2, rfl, rfl, rfl⟩ |
    ⟨s1, s2, e, s3, h1, h2, h3, rfl, rfl, rfl⟩ |
    ⟨s1, s2, s3, e, s4, h1, h2, h3, h4, rfl, rfl, rfl⟩ |
    ⟨s1, s2, s3, s4, e, s5, h1, h2, h3, h4, h5, rfl, rfl, rfl⟩ |
    ⟨s1, s2, s3, s4, s5, s6, h1, h2, h3, h4, h5, h6, rfl, rfl⟩ <;>
    simp_all [SucceedAll, Step.before, callOf, Collaborators.perform, Event.ok, Event.failed,
      Call.step, List.filter]

/-- Instance of C5: every stub initializer succeeds under a dry-run
configuration, leaving the call counter at 5. -/
theorem runGC_cleanup_called_once_witness :
    SucceedAll (stubEnv none) sampleConfig Step.hostCleanup.before 0 5 ∧
      (((runTrace (stubEnv none) sampleConfig 0).map Event.call).filter
            (fun c => c.step = Step.hostCleanup) =
          [Call.hostCleanup { DryRun := true }] ∧
        (runTrace (stubEnv none) sampleConfig 0).getLast? =
          some { call := Call.hostCleanup { DryRun := true }, result := none } ∧
        runResult (stubEnv none) sampleConfig 0 = none ∧
        runHost (stubEnv none) sampleConfig 0 = 6) :=
  ⟨⟨1, rfl, 2, rfl, 3, rfl, 4, rfl, 5, rfl, rfl⟩,
    runGC_cleanup_called_once (stubEnv none) sampleConfig 0 5
      ⟨1, rfl, 2, rfl, 3, rfl, 4, rfl, 5, rfl, rfl⟩⟩

/-- C6, counterexample: a dry run on a host without lock directory.  The run
returns nil, calls all six steps, and leaves a host state different from the
one it started on: `lock.Init`, which gets no dry-run information, has created
the lock directory. -/
theorem runGC_dry_run_changes_host :
    sampleConfig.DryRun = true ∧
      runResult specEnv sampleConfig freshHost = none ∧
      runHost specEnv sampleConfig freshHost ≠ freshHost := by
  decide

/-- C6, amended: for every behaviour of the collaborators the host state a run
leaves is the one its six collaborators produce, `runGC` adding nothing of its
own; with the cleanup engine of the spec, and for every behaviour of the
initializers, a run with the dry-run flag set leaves the host exactly as the
five initializers leave it; the initializers are called as in a real run (same
calls, same results), which leaves the same host but for the deletions of the
engine. -/
theorem runGC_dry_run_host {σ : Type} (env : Collaborators σ)
    (fatal : CommonOptions → σ → Option GoError) (delete : σ → σ) (cfg : CmdData) (s : σ)
    (hdry : cfg.DryRun = true) :
    runHost env cfg s = hostAfter env cfg stepOrder s ∧
      runHost (withSpecCleanup env fatal delete) cfg s = initializersHost env cfg s ∧
      initializerEvents (runTrace (withSpecCleanup env fatal delete) cfg s) =
        initializerEvents
          (runTrace (withSpecCleanup env fatal delete) { cfg with DryRun := false } s) ∧
      (∀ s5, SucceedAll env cfg Step.hostCleanup.before s s5 →
        runHost (withSpecCleanup env fatal delete) cfg s = s5 ∧
          runHost (withSpecCleanup env fatal delete) { cfg with DryRun := false } s =
            delete s5) := by
  refine ⟨runHost_eq_hostAfter env cfg s, ?_⟩
  obtain ⟨tmp, home, dc, ins, dry⟩ := cfg
  simp only at hdry
  subst hdry
  have ho := run_outcome (withSpecCleanup env fatal delete)
    { TmpDir := tmp, HomeDir := home, DockerConfig := dc, InsecureRepo := ins, DryRun := true } s
  have hr := run_outcome (withSpecCleanup env fatal delete)
    { TmpDir := tmp, HomeDir := home, DockerConfig := dc, InsecureRepo := ins, DryRun := false } s
  simp only [initializersHost]
  generalize runTrace (withSpecCleanup env fatal delete)
    { TmpDir := tmp, HomeDir := home, DockerConfig := dc, InsecureRepo := ins, DryRun := true }
    s = trD at ho ⊢
  generalize runResult (withSpecCleanup env fatal delete)
    { TmpDir := tmp, HomeDir := home, DockerConfig := dc, InsecureRepo := ins, DryRun := true }
    s = retD at ho
  generalize runHost (withSpecCleanup env fatal delete)
    { TmpDir := tmp, HomeDir := home, DockerConfig := dc, InsecureRepo := ins, DryRun := true }
    s = tD at ho ⊢
  generalize runTrace (withSpecCleanup env fatal delete)
    { TmpDir := tmp, HomeDir := home, DockerConfig := dc, InsecureRepo := ins, DryRun := false }
    s = trR at hr ⊢
  generalize runResult (withSpecCleanup env fatal delete)
    { TmpDir := tmp, HomeDir := home, DockerConfig := dc, InsecureRepo := ins, DryRun := false }
    s = retR at hr
  generalize runHost (withSpecCleanup env fatal delete)
    { TmpDir := tmp, HomeDir := home, DockerConfig := dc, InsecureRepo := ins, DryRun := false }
    s = tR at hr ⊢
  simp only [withSpecCleanup, RunOutcome, trueGitOptionsAt, specHostCleanup] at ho hr
  rcases ho with ⟨e, s1, h1, rfl, rfl, rfl⟩ | ⟨s1, e, s2, h1, h2, rfl, rfl, rfl⟩ |
    ⟨s1, s2, e, s3, h1, h2, h3, rfl, rfl, rfl⟩ |
    ⟨s1, s2, s3, e, s4, h1, h2, h3, h4, rfl, rfl, rfl⟩ |
    ⟨s1, s2, s3, s4, e, s5, h1, h2, h3, h4, h5, rfl, rfl, rfl⟩ |
    ⟨s1, s2, s3, s4, s5, s6, h1, h2, h3, h4, h5, h6, rfl, rfl⟩ <;>
    rcases hr with ⟨e0, u1, k1, rfl, rfl, rfl⟩ | ⟨u1, e0, u2, k1, k2, rfl, rfl, rfl⟩ |
    ⟨u1, u2, e0, u3, k1, k2, k3, rfl, rfl, rfl⟩ |
    ⟨u1, u2, u3, e0, u4, k1, k2, k3, k4, rfl, rfl, rfl⟩ |
    ⟨u1, u2, u3, u4, e0, u5, k1, k2, k3, k4, k5, rfl, rfl, rfl⟩ |
    ⟨u1, u2, u3, u4, u5, u6, k1, k2, k3, k4, k5, k6, rfl, rfl⟩ <;>
    simp_all [hostAfter, SucceedAll, Step.before, callOf, Collaborators.perform,
      initializerEvents, Event.ok, Event.failed, Call.step, trueGitOptionsAt, List.filter]

/-- Instance of the amended C6: on `freshHost` the dry run leaves what the
initializers of `specEnv` leave, which is `freshHost` with a lock directory. -/
theorem runGC_dry_run_host_witness :
    sampleConfig.DryRun = true ∧
      runHost (withSpecCleanup specEnv (fun _ _ => none) specDelete) sampleConfig freshHost =
        initializersHost specEnv sampleConfig freshHost ∧
      initializersHost specEnv sampleConfig freshHost =
        { freshHost with lockDirExists := true } :=
  ⟨rfl,
    (runGC_dry_run_host specEnv (fun _ _ => none) specDelete sampleConfig freshHost rfl).2.1,
    by decide⟩

/-- C8: the first call of a run is `werf.Init` with the temp dir and home dir
of the configuration, in that order; every call to `werf.Init`,
`docker_registry.Init` and `docker.Init` in the run carries the corresponding
configuration values; and `CommonCmdData` is the same after the run as before. -/
theorem runGC_passes_configuration {σ : Type} (env : Collaborators σ) (cfg : CmdData)
    (s : σ) :
    ((runTrace env cfg s).map Event.call).head? = some (Call.werfInit cfg.TmpDir cfg.HomeDir) ∧
      (∀ a b, Call.werfInit a b ∈ (runTrace env cfg s).map Event.call →
        a = cfg.TmpDir ∧ b = cfg.HomeDir) ∧
      (∀ o, Call.dockerRegistryInit o ∈ (runTrace env cfg s).map Event.call →
        o.AllowInsecureRepo = cfg.InsecureRepo) ∧
      (∀ d, Call.dockerInit d ∈ (runTrace env cfg s).map Event.call →
        d = cfg.DockerConfig) ∧
      (runGC env (World.start cfg s)).2.CommonCmdData = cfg := by
  have hcfg : (runGC env (World.start cfg s)).2.CommonCmdData = cfg := by
    obtain ⟨_, -, h, -⟩ := runGC_shape env (World.start cfg s)
    simpa [World.start] using h
  have hs := run_shape env cfg s
  refine ⟨?_, ?_, ?_, ?_, hcfg⟩ <;>
    generalize runTrace env cfg s = tr at hs ⊢ <;>
    generalize runResult env cfg s = ret at hs ⊢ <;>
    rcases hs with ⟨e, rfl, rfl⟩ | ⟨e, rfl, rfl⟩ | ⟨e, t, rfl, rfl⟩ | ⟨e, t, rfl, rfl⟩ |
      ⟨e, t, rfl, rfl⟩ | ⟨t, rfl⟩ <;>
    simp [Event.ok, Event.failed]

/-- C9, counterexample: `werf.Init` fails with a cause whose `Format` method
writes something else than its `Error()` text; the message of the error
`runGC` returns is "initialization error: " followed by what `Format` wrote,
not by the message of the cause. -/
theorem runGC_werf_error_formatter :
    ∃ c t, FirstError formatterEnv sampleConfig 0 .werfInit c t ∧
      ∃ r, runResult formatterEnv sampleConfig 0 = some r ∧
        r.Error = "initialization error: EACCES" ∧
        r.Error ≠ "initialization error: " ++ c.Error :=
  ⟨.plain "mkdir /tmp/werf: permission denied" (some "EACCES"), 1, ⟨0, rfl, rfl⟩,
    .plain "initialization error: EACCES" none, by decide, by decide, by decide⟩

/-- C9, amended: when a step other than `werf.Init` is the first whose
collaborator returns an error, `c`, `runGC` returns exactly `c`; when
`werf.Init` returns the error `c`, `runGC` returns a new error, without
`Unwrap`, whose message is "initialization error: " followed by `c` as written
for the verb `%s`: the message of `c` when `c` has no `Format` method, what
its `Format` method writes otherwise. -/
theorem runGC_error_passthrough {σ : Type} (env : Collaborators σ) (cfg : CmdData) (s : σ)
    (st : Step) (c : GoError) (t : σ) (h : FirstError env cfg s st c t) :
    (st ≠ Step.werfInit → runResult env cfg s = some c) ∧
      (st = Step.werfInit →
        runResult env cfg s =
          some (GoError.plain ("initialization error: " ++ c.verbText) none)) ∧
      (st = Step.werfInit → c.verbS = none →
        runResult env cfg s =
          some (GoError.plain ("initialization error: " ++ c.Error) none)) ∧
      (st = Step.werfInit → ∀ f, c.verbS = some f →
        runResult env cfg s = some (GoError.plain ("initialization error: " ++ f) none)) := by
  have hr := (run_of_firstError env cfg s st c t h).1
  refine ⟨fun hst => ?_, fun hst => ?_, fun hst hf => ?_, fun hst f hf => ?_⟩
  · simpa [hst] using hr
  · simpa [hst, fmt_Errorf] using hr
  · simpa [hst, fmt_Errorf, GoError.verbText, hf] using hr
  · simpa [hst, fmt_Errorf, GoError.verbText, hf] using hr

/-- Instance of the amended C9: `cleaning.HostCleanup` fails after all
initializers succeeded, and its error comes back as it is. -/
theorem runGC_error_passthrough_witness :
    FirstError (stubEnv (some .hostCleanup)) sampleConfig 0 .hostCleanup
        (.plain "cannot list containers" none) 6 ∧
      runResult (stubEnv (some .hostCleanup)) sampleConfig 0 =
        some (.plain "cannot list containers" none) :=
  ⟨⟨5, ⟨1, rfl, 2, rfl, 3, rfl, 4, rfl, 5, rfl, rfl⟩, rfl⟩,
    (runGC_error_passthrough (stubEnv (some .hostCleanup)) sampleConfig 0 .hostCleanup
      (.plain "cannot list containers" none) 6
      ⟨5, ⟨1, rfl, 2, rfl, 3, rfl, 4, rfl, 5, rfl, rfl⟩, rfl⟩).1 (by decide)⟩

/-! ## Claims about the `RunE` handler -/

/-- C10: if `common.ApplyLogOptions` returns an error, `RunE` returns that same
error and makes no call to any of the six steps of `runGC`; if it returns nil,
the result of `RunE` and the calls made are those of `runGC`, run on the state
left by `common.ApplyLogOptions` and `common.LogVersion`. -/
theorem RunE_apply_log_options {σ : Type} (env : Collaborators σ) (w : World σ) :
    (∀ err cfg s, env.common_ApplyLogOptions w.CommonCmdData w.host = (some err, cfg, s) →
        (RunE env w).1 = some err ∧ (RunE env w).2.trace = w.trace) ∧
      (∀ cfg s, env.common_ApplyLogOptions w.CommonCmdData w.host = (none, cfg, s) →
        (RunE env w).1 =
            (runGC env { CommonCmdData := cfg, host := env.common_LogVersion s,
                         trace := w.trace }).1 ∧
          (RunE env w).2.trace =
            (runGC env { CommonCmdData := cfg, host := env.common_LogVersion s,
                         trace := w.trace }).2.trace) := by
  constructor
  · intro err cfg s h
    simp [RunE, h]
  · intro cfg s h
    simp [RunE, h, common_LogRunningTime]

/-- Instance of C10: rejected log options end the handler with that error and
an empty trace; accepted ones give the result of `runGC`. -/
theorem RunE_apply_log_options_witness :
    ((RunE badLogEnv (World.start sampleConfig 0)).1 = some (.plain "bad log color mode" none) ∧
        (RunE badLogEnv (World.start sampleConfig 0)).2.trace = []) ∧
      (RunE (stubEnv (some .lockInit)) (World.start sampleConfig 0)).1 =
        (runGC (stubEnv (some .lockInit)) (World.start sampleConfig 0)).1 :=
  ⟨(RunE_apply_log_options badLogEnv (World.start sampleConfig 0)).1
      (.plain "bad log color mode" none) sampleConfig 0 rfl,
    ((RunE_apply_log_options (stubEnv (some .lockInit)) (World.start sampleConfig 0)).2
      sampleConfig 0 rfl).1⟩

end Cleanup
